import Mathlib

/-
Verification of the acquisition-completeness detection and file-set assembly
subsystem of iMars3D (python/imars3d/CT_from_TIFF_metadata.py), shallowly
embedded in Lean.  Machine floats are modelled as exact rationals, the
file system as explicit lists of directory entries carrying the metadata and
pixel data that the source reads from each file.
-/

namespace CTMeta

/-- Outcome of one invocation of the autoreduce orchestrator
(CT_from_TIFF_metadata.py, function autoreduce, lines 31-57).  The assembly
and reconstruction work performed after the two completeness checks is
abstracted into the single outcome `assembled`; `corrupted` carries the
trigger path named by the RuntimeError of line 39. -/
inductive AutoreduceResult where
  | incomplete : AutoreduceResult
  | corrupted : String → AutoreduceResult
  | assembled : AutoreduceResult
deriving DecidableEq

/-- The completion predicate of the GroupCompletionDetector contract
(spec section 4.2): runNo >= groupId + groupSize - 1.  Spec-side definition,
used to compare the orchestrator's decisions against the contract. -/
def isComplete (runNo groupId groupSize : ℤ) : Bool :=
  decide (runNo ≥ groupId + groupSize - 1)

/-- The second completeness check of autoreduce (lines 38-39) together with
the subsequent hand-off to assembly: raise the corrupted-file RuntimeError
naming the trigger path when the re-tested condition RunNo < GroupID +
GroupSize - 1 holds, otherwise proceed to assembly. -/
def secondCheck (path : String) (runNo groupId groupSize : ℤ) : AutoreduceResult :=
  if runNo < groupId + groupSize - 1 then .corrupted path else .assembled

/-- autoreduce (lines 31-57): the first check (line 36) returns silently when
RunNo < GroupID + GroupSize - 1; otherwise the same condition is re-tested on
the same in-memory integers (lines 38-39) and assembly proceeds. -/
def autoreduce (path : String) (runNo groupId groupSize : ℤ) : AutoreduceResult :=
  if runNo < groupId + groupSize - 1 then .incomplete
  else secondCheck path runNo groupId groupSize

/-- Python str.split on the slash character, modelled on the character list
of the path (getIPTSdir, line 211: tokens = f1.split of a slash). -/
def splitSlash (s : String) : List String :=
  (s.data.splitOn '/').map (fun l => String.mk l)

/-- Python startswith applied to the reserved token IPTS (line 215). -/
def startsWithIPTS (t : String) : Bool :=
  decide (t.data.take 4 = "IPTS".data)

/-- The loop of getIPTSdir (lines 212-216): p accumulates token + slash and
the walk stops right after the first token that begins with IPTS. -/
def getIPTSdirGo (p : String) : List String → String
  | [] => p
  | token :: rest =>
    let q := p ++ token ++ "/"
    if startsWithIPTS token then q else getIPTSdirGo q rest

/-- getIPTSdir (lines 209-216).  Note the source returns the accumulated
string also when no token begins with IPTS. -/
def getIPTSdir (f1 : String) : String :=
  getIPTSdirGo "" (splitSlash f1)

/-- Slash-join of a token list, every token followed by one slash. -/
def joinSlash : List String → String
  | [] => ""
  | t :: rest => t ++ "/" ++ joinSlash rest

/-- Modelled from the spec (section 4.3): resolveExperimentRoot returns the
prefix of the path up to and including the first segment beginning with the
reserved IPTS token, and fails (none) when no segment matches.  Spec-side
definition for comparison with getIPTSdir. -/
def resolveExperimentRootSpec (path : String) : Option String :=
  let tokens := splitSlash path
  if tokens.any startsWithIPTS then
    some (joinSlash (tokens.takeWhile (fun t => !(startsWithIPTS t)) ++
      (tokens.dropWhile (fun t => !(startsWithIPTS t))).take 1))
  else none

/-- One entry of a calibration (ob or df) subdirectory listing with its
modification time.  isDir records whether the entry is itself a directory:
os.listdir lists those too and _find_OB_DF_files applies no file test. -/
structure CalEntry where
  path : String
  isDir : Bool
  mtime : ℚ
deriving DecidableEq

/-- The RuntimeError of line 135 (no calibration files within one day). -/
inductive CalError where
  | noCalibrationFiles : CalError
deriving DecidableEq

/-- One day in seconds (line 126). -/
def day : ℚ := 24 * 3600

/-- The mtime filter of _find_OB_DF_files (lines 127-133): keep entries whose
mtime is strictly greater than earliest_ct_mtime - day.  The source applies
no file-versus-directory test to the listing. -/
def keptEntries (earliest : ℚ) (entries : List CalEntry) : List CalEntry :=
  entries.filter (fun e => decide (e.mtime > earliest - day))

/-- _find_OB_DF_files (lines 118-139): RuntimeError when no entry survives
the time window, a warning (the returned Bool) when fewer than five do. -/
def find_OB_DF_files (earliest : ℚ) (entries : List CalEntry) :
    Except CalError (List CalEntry × Bool) :=
  let out := keptEntries earliest entries
  if out.length = 0 then .error .noCalibrationFiles
  else .ok (out, decide (out.length < 5))

/-- One entry of the CT directory listing together with the metadata and
pixel data the source reads from it.  isTiff is false for entries whose
metadata read raises the not-a-valid-TIFF ValueError (skipped, lines
152-157); image is the pixel data of the file as one flat list; frameSize
and groupId are the integer metadata fields of the file. -/
structure DirEntry where
  path : String
  isDir : Bool
  isTiff : Bool
  groupId : ℤ
  frameSize : ℤ
  rotation : ℚ
  mtime : ℚ
  image : List ℚ
deriving DecidableEq

/-- Failure modes of _getCTfiles.  emptyGroupMin is the numpy ValueError of
np.min on an empty list (line 164); unboundLocalCtDir is the Python
UnboundLocalError of line 175 (ct_dir is assigned only when frame_size is
not 1, line 167, yet used on the frame_size 1 path); zeroFrameSize is the
ZeroDivisionError of index modulo frame_size (line 182); inconsistentAngles
is the AssertionError of line 190; inconsistentGeometry the numpy broadcast
error of line 196 on images of different sizes. -/
inductive CTError where
  | emptyGroupMin : CTError
  | unboundLocalCtDir : CTError
  | zeroFrameSize : CTError
  | inconsistentAngles : CTError
  | inconsistentGeometry : CTError
deriving DecidableEq

/-- A member of the output sequence: either a symlink to a source file
(frame size 1, line 176) or a newly written averaged image (line 201),
represented by its pixel data.  The at_angle.tiff file name is represented
by the angle paired with the entry in the output list. -/
inductive OutFile where
  | link : String → OutFile
  | averaged : List ℚ → OutFile
deriving DecidableEq

/-- Filter of the directory listing (lines 149-163): skip directories, skip
entries that are not valid TIFF files, keep entries of the trigger's
group. -/
def matchingEntries (groupID : ℤ) (entries : List DirEntry) : List DirEntry :=
  entries.filter (fun e => !e.isDir && e.isTiff && decide (e.groupId = groupID))

/-- np.min on the collected mtime list (line 164); numpy raises a ValueError
on an empty list. -/
def npMin : List ℚ → Except CTError ℚ
  | [] => .error .emptyGroupMin
  | x :: xs => .ok (xs.foldl min x)

/-- Python string comparison (code-point lexicographic), as used by sorted
on (angle, path) tuples when two angles tie (line 171). -/
def strLtB : List Char → List Char → Bool
  | [], [] => false
  | [], _ :: _ => true
  | _ :: _, [] => false
  | a :: as, b :: bs => if a < b then true else if b < a then false else strLtB as bs

/-- Lexicographic comparison of two path strings. -/
def pathLt (a b : String) : Bool := strLtB a.data b.data

/-- The tuple order of sorted on zip(angles, files) (line 171): by angle,
ties by file path.  Each pair carries its whole DirEntry so that the loop
can read the entry's pixel data; the sort key is (angle, path) exactly as in
the source. -/
def pairLe (a b : ℚ × DirEntry) : Prop :=
  a.1 < b.1 ∨ (a.1 = b.1 ∧ ¬ pathLt b.2.path a.2.path = true)

instance pairLe.instDecidable : DecidableRel pairLe := fun a b => by
  unfold pairLe
  infer_instance

/-- sorted(zip(angles, files)) (line 171): a stable sort by the tuple order;
Python's stable sort and insertion sort by the same total preorder produce
the same list. -/
def sortPairs (l : List (ℚ × DirEntry)) : List (ℚ × DirEntry) :=
  List.insertionSort pairLe l

/-- The absolute tolerance passed to np.allclose at line 190. -/
def atol : ℚ := 1 / 1000

/-- The numpy default relative tolerance of np.allclose, not overridden at
line 190. -/
def rtol : ℚ := 1 / 100000

/-- np.allclose(xs, b, rtol=1e-5, atol=1e-3) (line 190): every element of xs
within atol + rtol * abs(b) of b. -/
def allclose (xs : List ℚ) (b : ℚ) : Bool :=
  xs.all (fun a => decide (|a - b| ≤ atol + rtol * |b|))

/-- np.average (line 189): the arithmetic mean. -/
def npAverage (xs : List ℚ) : ℚ := xs.sum / (xs.length : ℚ)

/-- data = 0.; data += arr for each frame (lines 192-197).  The accumulator
is none while data is still the scalar 0; the first array replaces it, and a
further array of a different length is the numpy broadcast error (numpy's
length-one broadcasting is not modelled; no claim touches it). -/
def sumWindowGo : Option (List ℚ) → List (List ℚ) → Except CTError (Option (List ℚ))
  | acc, [] => .ok acc
  | none, img :: rest => sumWindowGo (some img) rest
  | some a, img :: rest =>
    if a.length = img.length then sumWindowGo (some (List.zipWith (· + ·) a img)) rest
    else .error .inconsistentGeometry

/-- Body of one full averaging window (lines 184-204): mean angle, the
allclose assertion, then the pixel sum of all frames divided by frame_size.
An empty window would leave data as the scalar zero, rendered here as an
empty image (unreachable from the loop, which slices non-empty windows). -/
def processWindow (frameSize : ℤ) (sublist : List (ℚ × DirEntry)) :
    Except CTError (ℚ × OutFile) :=
  let angles1 := sublist.map Prod.fst
  let aveAngle := npAverage angles1
  if allclose angles1 aveAngle then
    match sumWindowGo none (sublist.map (fun p => p.2.image)) with
    | .error e => .error e
    | .ok none => .ok (aveAngle, .averaged [])
    | .ok (some data) => .ok (aveAngle, .averaged (data.map (fun x => x / (frameSize : ℚ))))
  else .error .inconsistentAngles

/-- The enumerate loop over the sorted (angle, file) list (lines 173-205).
all is the full sorted list, sliced once per completed window; idx is the
enumerate index; the final argument is the part of the list still to be
visited.  The source skips an index unless idx mod frame_size equals
frame_size - 1; the condition is written here positively.  On the
frame_size 1 path the source reads the local ct_dir, assigned only when
frame_size is not 1 (line 167), hence the unbound-local error when the
frame-averaged directory option is absent. -/
def mainLoop (frameSize : ℤ) (ctDir : Option String) (all : List (ℚ × DirEntry)) :
    ℕ → List (ℚ × DirEntry) → Except CTError (List (ℚ × OutFile))
  | _, [] => .ok []
  | idx, p :: rest =>
    if frameSize = 1 then
      match ctDir with
      | none => .error .unboundLocalCtDir
      | some _ =>
        match mainLoop frameSize ctDir all (idx + 1) rest with
        | .error e => .error e
        | .ok out => .ok ((p.1, .link p.2.path) :: out)
    else if frameSize = 0 then .error .zeroFrameSize
    else if (idx : ℤ) % frameSize = frameSize - 1 then
      match processWindow frameSize
          ((all.drop (idx + 1 - frameSize.toNat)).take frameSize.toNat) with
      | .error e => .error e
      | .ok r =>
        match mainLoop frameSize ctDir all (idx + 1) rest with
        | .error e => .error e
        | .ok out => .ok (r :: out)
    else mainLoop frameSize ctDir all (idx + 1) rest

/-- _getCTfiles (lines 142-206).  The trigger file's metadata supplies the
group id and frame size; the directory listing is passed explicitly.
Returned: earliest_ct_mtime and the output (angle, file) sequence.  Line 162
of the source appends os.path.getmtime(f1) for every matching entry, where
f1 is the TRIGGER file, not the entry being visited; the model reproduces
that. -/
def getCTfiles (workdir : String) (trigger : DirEntry) (entries : List DirEntry) :
    Except CTError (ℚ × List (ℚ × OutFile)) :=
  let matching := matchingEntries trigger.groupId entries
  let angles := matching.map DirEntry.rotation
  let mtimes := matching.map (fun _ => trigger.mtime)
  match npMin mtimes with
  | .error e => .error e
  | .ok earliest =>
    let ctDir : Option String :=
      if trigger.frameSize ≠ 1 then some (workdir ++ "/CT_frame_averaged") else none
    let sortedPairs := sortPairs (angles.zip matching)
    match mainLoop trigger.frameSize ctDir sortedPairs 0 sortedPairs with
    | .error e => .error e
    | .ok out => .ok (earliest, out)

/-- Sequential processing of a list of full windows, first failure wins;
the reference shape against which the enumerate loop is proved equal. -/
def processWindows (frameSize : ℤ) : List (List (ℚ × DirEntry)) →
    Except CTError (List (ℚ × OutFile))
  | [] => .ok []
  | w :: ws =>
    match processWindow frameSize w with
    | .error e => .error e
    | .ok r =>
      match processWindows frameSize ws with
      | .error e => .error e
      | .ok out => .ok (r :: out)

/-- Pixel-wise arithmetic mean of a window of images, stated independently
of the accumulation order of the source: pixel j of the output is the sum
over all images of their pixel j, divided by the frame size. -/
def pixelMeanSpec (frameSize : ℤ) (imgs : List (List ℚ)) (len : ℕ) : List ℚ :=
  (List.range len).map (fun j => ((imgs.map (fun img => img.getD j 0)).sum) / (frameSize : ℚ))

/- Concrete inputs used by witnesses and counterexamples. -/

/-- Scenario B, first frame at angle 0. -/
def sceB1 : DirEntry := ⟨"/SNS/IPTS-5/f1.tiff", false, true, 100, 2, 0, 1000, [1, 3]⟩

/-- Scenario B, second frame at angle 0. -/
def sceB2 : DirEntry := ⟨"/SNS/IPTS-5/f2.tiff", false, true, 100, 2, 0, 1001, [3, 5]⟩

/-- Scenario B, first frame at angle 10. -/
def sceB3 : DirEntry := ⟨"/SNS/IPTS-5/f3.tiff", false, true, 100, 2, 10, 1002, [10, 20]⟩

/-- Scenario B, second frame at angle 10. -/
def sceB4 : DirEntry := ⟨"/SNS/IPTS-5/f4.tiff", false, true, 100, 2, 10, 1003, [50, 60]⟩

/-- Scenario B, the two full windows of the sorted list. -/
def sceBw1 : List (ℚ × DirEntry) := [(0, sceB1), (0, sceB2)]

/-- Scenario B, second window. -/
def sceBw2 : List (ℚ × DirEntry) := [(10, sceB3), (10, sceB4)]

/-- Scenario A (frame size 1), four files of group 100 with angles 10, 0,
30, 20. -/
def sceA1 : DirEntry := ⟨"/SNS/IPTS-5/g1.tiff", false, true, 100, 1, 10, 500, [1]⟩

/-- Scenario A, second file. -/
def sceA2 : DirEntry := ⟨"/SNS/IPTS-5/g2.tiff", false, true, 100, 1, 0, 501, [2]⟩

/-- Scenario A, third file. -/
def sceA3 : DirEntry := ⟨"/SNS/IPTS-5/g3.tiff", false, true, 100, 1, 30, 502, [3]⟩

/-- Scenario A, fourth file. -/
def sceA4 : DirEntry := ⟨"/SNS/IPTS-5/g4.tiff", false, true, 100, 1, 20, 503, [4]⟩

/-- Trigger file for the earliest-mtime check: group 7, frame size 2,
mtime 100. -/
def c4trig : DirEntry := ⟨"/SNS/IPTS-5/a.tiff", false, true, 7, 2, 0, 100, [0]⟩

/-- A second file of group 7 whose own mtime, 50, is EARLIER than the
trigger's. -/
def c4other : DirEntry := ⟨"/SNS/IPTS-5/b.tiff", false, true, 7, 2, 0, 50, [2]⟩

/-- A calibration file whose mtime sits exactly on the one-day boundary for
earliest mtime 86400. -/
def c5boundary : CalEntry := ⟨"boundary.tiff", false, 0⟩

/-- A subdirectory entry of the calibration directory, one day after the
boundary. -/
def c5subdir : CalEntry := ⟨"subdir", true, 86400⟩

/-- Four timely calibration files (warning-but-success case). -/
def c6four : List CalEntry :=
  [⟨"o1.tiff", false, 10⟩, ⟨"o2.tiff", false, 11⟩, ⟨"o3.tiff", false, 12⟩,
   ⟨"o4.tiff", false, 13⟩]

/-- Five timely calibration files (no-warning case). -/
def c6five : List CalEntry :=
  [⟨"o1.tiff", false, 10⟩, ⟨"o2.tiff", false, 11⟩, ⟨"o3.tiff", false, 12⟩,
   ⟨"o4.tiff", false, 13⟩, ⟨"o5.tiff", false, 14⟩]

/-- Window whose two angles, 128 and 128.003, both sit 0.0015 away from the
mean 128.0015: more than the stated 1e-3 tolerance, yet inside the
atol + rtol * abs(mean) bound that np.allclose actually tests. -/
def c7w : List (ℚ × DirEntry) :=
  [(128, ⟨"/SNS/IPTS-5/h1.tiff", false, true, 3, 2, 128, 10, [4]⟩),
   (128003 / 1000, ⟨"/SNS/IPTS-5/h2.tiff", false, true, 3, 2, 128003 / 1000, 10, [6]⟩)]

/-- A window of two frames at the same angle 1 (tolerance trivially met). -/
def c7good : List (ℚ × DirEntry) :=
  [(1, ⟨"/SNS/IPTS-5/k1.tiff", false, true, 3, 2, 1, 10, [4]⟩),
   (1, ⟨"/SNS/IPTS-5/k2.tiff", false, true, 3, 2, 1, 10, [6]⟩)]

/- Theorems. -/

/-- C1: the orchestrator's completion decision coincides with the pure
predicate runNo >= groupId + groupSize - 1: below the threshold the
invocation returns incomplete, at or above it the group is judged complete
and assembly proceeds. -/
theorem C1_completion_decision (path : String) (runNo groupId groupSize : ℤ) :
    (autoreduce path runNo groupId groupSize = .incomplete ↔
       isComplete runNo groupId groupSize = false) ∧
    (autoreduce path runNo groupId groupSize = .assembled ↔
       isComplete runNo groupId groupSize = true) := by
  unfold autoreduce secondCheck isComplete
  by_cases h : runNo < groupId + groupSize - 1 <;>
    simp [h] <;> omega

/-- C1 witness: at runNo 59, groupId 40, groupSize 20 the threshold is met
exactly and the decision is assembled. -/
theorem C1_completion_decision_witness :
    autoreduce "f.tiff" 59 40 20 = .assembled :=
  (C1_completion_decision "f.tiff" 59 40 20).2.mpr (by decide)

/-- C8: whenever the first evaluation of the completion predicate is true,
the invocation's outcome is that of the re-evaluation step; the
re-evaluation step raises the corrupted-group error naming the trigger file
exactly when the predicate evaluates false; and assembly is reached only
when the re-evaluation also holds. -/
theorem C8_recheck (path : String) (runNo groupId groupSize : ℤ) :
    (isComplete runNo groupId groupSize = true →
       autoreduce path runNo groupId groupSize = secondCheck path runNo groupId groupSize) ∧
    (secondCheck path runNo groupId groupSize = .corrupted path ↔
       isComplete runNo groupId groupSize = false) ∧
    (autoreduce path runNo groupId groupSize = .assembled →
       isComplete runNo groupId groupSize = true) := by
  refine ⟨?_, ?_, ?_⟩
  · intro h
    unfold autoreduce
    unfold isComplete at h
    simp only [decide_eq_true_eq] at h
    rw [if_neg (by omega)]
  · unfold secondCheck isComplete
    by_cases h : runNo < groupId + groupSize - 1 <;> simp [h] <;> omega
  · intro h
    unfold autoreduce secondCheck at h
    unfold isComplete
    by_cases hc : runNo < groupId + groupSize - 1 <;>
      simp [hc] at h ⊢ <;> omega

/-- C8 witness: with runNo 5, groupId 1, groupSize 5 the first check
passes, the outcome equals the re-evaluation step, and that step's
corrupted branch is characterised by the predicate being false. -/
theorem C8_recheck_witness :
    autoreduce "f.tiff" 5 1 5 = secondCheck "f.tiff" 5 1 5 ∧
    (secondCheck "f.tiff" 5 1 5 = .corrupted "f.tiff" ↔ isComplete 5 1 5 = false) :=
  ⟨(C8_recheck "f.tiff" 5 1 5).1 (by decide), (C8_recheck "f.tiff" 5 1 5).2.1⟩

/-- C9: the corrupted-file branch of autoreduce is unreachable.  Both checks
test the identical condition on the same unchanged in-memory integers, so no
invocation ever yields the corrupted outcome. -/
theorem C9_corrupted_unreachable (path p : String) (runNo groupId groupSize : ℤ) :
    autoreduce path runNo groupId groupSize ≠ .corrupted p := by
  unfold autoreduce secondCheck
  by_cases h : runNo < groupId + groupSize - 1 <;> simp [h]

/-- Characterisation of the getIPTSdir walk: with accumulator p it returns p
followed by the slash-join of the tokens up to and including the first one
beginning with IPTS, or of all tokens when none does. -/
theorem getIPTSdirGo_eq (tokens : List String) : ∀ p : String,
    getIPTSdirGo p tokens =
      if tokens.any startsWithIPTS then
        p ++ joinSlash (tokens.takeWhile (fun t => !(startsWithIPTS t)) ++
          (tokens.dropWhile (fun t => !(startsWithIPTS t))).take 1)
      else p ++ joinSlash tokens := by
  induction tokens with
  | nil =>
    intro p
    simp [getIPTSdirGo, joinSlash]
  | cons t rest ih =>
    intro p
    by_cases h : startsWithIPTS t
    · simp [getIPTSdirGo, h, joinSlash, String.append_assoc]
    · simp only [getIPTSdirGo, h, if_false, Bool.false_eq_true, ih,
        List.any_cons, Bool.false_or, List.takeWhile_cons, List.dropWhile_cons,
        Bool.not_false, if_true, joinSlash]
      by_cases ha : rest.any startsWithIPTS <;>
        simp [ha, joinSlash, String.append_assoc]

/-- C10 (amended): getIPTSdir returns the slash-joined prefix of the path up
to and including the first segment beginning with IPTS, agreeing there with
the spec's resolveExperimentRoot; but when no segment begins with IPTS it
returns the whole path slash-joined, where the spec contract demands a
failure. -/
theorem C10_experiment_root (path : String) :
    ((splitSlash path).any startsWithIPTS = true →
       getIPTSdir path = joinSlash ((splitSlash path).takeWhile (fun t => !(startsWithIPTS t)) ++
         ((splitSlash path).dropWhile (fun t => !(startsWithIPTS t))).take 1) ∧
       resolveExperimentRootSpec path = some (getIPTSdir path)) ∧
    ((splitSlash path).any startsWithIPTS = false →
       getIPTSdir path = joinSlash (splitSlash path) ∧
       resolveExperimentRootSpec path = none) := by
  have hgo := getIPTSdirGo_eq (splitSlash path) ""
  constructor
  · intro h
    have h1 : getIPTSdir path = joinSlash ((splitSlash path).takeWhile (fun t => !(startsWithIPTS t)) ++
        ((splitSlash path).dropWhile (fun t => !(startsWithIPTS t))).take 1) := by
      unfold getIPTSdir
      rw [hgo, if_pos h]
      exact String.empty_append _
    refine ⟨h1, ?_⟩
    unfold resolveExperimentRootSpec
    rw [if_pos h, h1]
  · intro h
    have h1 : getIPTSdir path = joinSlash (splitSlash path) := by
      unfold getIPTSdir
      rw [hgo, if_neg (by simp [h])]
      exact String.empty_append _
    refine ⟨h1, ?_⟩
    unfold resolveExperimentRootSpec
    rw [if_neg (by simp [h])]

/-- C10 witness: on a path containing an IPTS segment the source function
and the spec contract agree. -/
theorem C10_experiment_root_witness :
    resolveExperimentRootSpec "/SNS/IPTS-123/raw/ct.tiff" =
      some (getIPTSdir "/SNS/IPTS-123/raw/ct.tiff") :=
  ((C10_experiment_root "/SNS/IPTS-123/raw/ct.tiff").1 (by decide)).2

/-- C10 counterexample: on a path with no IPTS segment, getIPTSdir does not
fail; it returns the entire path with a slash after every segment, while the
spec contract demands an ExperimentRootNotFound failure. -/
theorem C10_counterexample :
    getIPTSdir "/SNS/nofolder/ct.tiff" = "/SNS/nofolder/ct.tiff/" ∧
    resolveExperimentRootSpec "/SNS/nofolder/ct.tiff" = none := by
  constructor <;> decide

/-- C5 (amended): an entry of the calibration listing is kept if and only if
its modification time is STRICTLY greater than earliestCTFileTime - 86400
seconds; entries are not tested for being files, so subdirectories pass the
filter too; and the set returned by a successful lookup is exactly the kept
set. -/
theorem C5_time_window (earliest : ℚ) (entries : List CalEntry) :
    (∀ e, e ∈ keptEntries earliest entries ↔ e ∈ entries ∧ e.mtime > earliest - day) ∧
    (∀ res, find_OB_DF_files earliest entries = .ok res →
       res.1 = keptEntries earliest entries) := by
  constructor
  · intro e
    simp [keptEntries, List.mem_filter]
  · intro res h
    unfold find_OB_DF_files at h
    by_cases hl : (keptEntries earliest entries).length = 0
    · rw [if_pos hl] at h
      exact absurd h (by simp)
    · rw [if_neg hl] at h
      cases h
      rfl

/-- C5 witness: on the boundary directory listing the kept set is computed
by the strict filter, as the amended claim states. -/
theorem C5_time_window_witness :
    ([c5subdir] : List CalEntry) = keptEntries 86400 [c5boundary, c5subdir] :=
  (C5_time_window 86400 [c5boundary, c5subdir]).2 ([c5subdir], true) (by
    norm_num [find_OB_DF_files, keptEntries, day, c5boundary, c5subdir,
      List.filter_cons])

/-- C5 counterexample: with earliestCTFileTime 86400 the file whose mtime is
exactly 86400 - 86400 = 0 is DROPPED (the source tests strict greater-than),
while the subdirectory entry with a later mtime is KEPT (the source never
excludes directories) — both directions contradict the claim. -/
theorem C5_counterexample :
    find_OB_DF_files 86400 [c5boundary, c5subdir] = .ok ([c5subdir], true) := by
  norm_num [find_OB_DF_files, keptEntries, day, c5boundary, c5subdir,
    List.filter_cons]

/-- C6: an empty kept set is the fatal no-calibration-files error; a kept
set of fewer than five members is returned together with the quality
warning; a kept set of exactly five members is returned without warning. -/
theorem C6_calibration_counts (earliest : ℚ) (entries : List CalEntry) :
    (keptEntries earliest entries = [] →
       find_OB_DF_files earliest entries = .error .noCalibrationFiles) ∧
    (keptEntries earliest entries ≠ [] → (keptEntries earliest entries).length < 5 →
       find_OB_DF_files earliest entries = .ok (keptEntries earliest entries, true)) ∧
    ((keptEntries earliest entries).length = 5 →
       find_OB_DF_files earliest entries = .ok (keptEntries earliest entries, false)) := by
  refine ⟨?_, ?_, ?_⟩
  · intro h
    simp [find_OB_DF_files, h]
  · intro h1 h2
    have h0 : ¬ (keptEntries earliest entries).length = 0 := by
      simpa [List.length_eq_zero] using h1
    simp [find_OB_DF_files, h0, h2]
  · intro h
    have h0 : ¬ (keptEntries earliest entries).length = 0 := by omega
    simp [find_OB_DF_files, h0, h]

/-- C6 witness: four timely files succeed with the warning flag set, five
timely files succeed with no warning. -/
theorem C6_calibration_counts_witness :
    find_OB_DF_files 0 c6four = .ok (keptEntries 0 c6four, true) ∧
    find_OB_DF_files 0 c6five = .ok (keptEntries 0 c6five, false) := by
  have hk4 : keptEntries 0 c6four = c6four := by
    norm_num [keptEntries, c6four, day, List.filter_cons]
  have hk5 : keptEntries 0 c6five = c6five := by
    norm_num [keptEntries, c6five, day, List.filter_cons]
  refine ⟨(C6_calibration_counts 0 c6four).2.1 ?_ ?_,
    (C6_calibration_counts 0 c6five).2.2 ?_⟩
  · rw [hk4]
    simp [c6four]
  · rw [hk4]
    simp [c6four]
  · rw [hk5]
    simp [c6five]

/-- The enumerate index c * k + m with m < k reduces modulo k to m. -/
theorem emod_window (k c m : ℕ) (h : m < k) :
    ((c * k + m : ℕ) : ℤ) % (k : ℤ) = m := by
  push_cast
  have h1 : (m : ℤ) + (k : ℤ) * (c : ℤ) = (c : ℤ) * (k : ℤ) + (m : ℤ) := by ring
  rw [← h1, Int.add_mul_emod_self_left,
    Int.emod_eq_of_lt (by positivity) (by exact_mod_cast h)]

/-- A remainder shorter than the distance to the next window end makes the
loop skip every remaining entry: the trailing partial window is dropped
without error. -/
theorem mainLoop_short_tail (k : ℕ) (hk : 2 ≤ k) (ctDir : Option String)
    (all : List (ℚ × DirEntry)) :
    ∀ (t : List (ℚ × DirEntry)) (c m : ℕ), m + t.length < k →
      mainLoop (k : ℤ) ctDir all (c * k + m) t = .ok [] := by
  intro t
  induction t with
  | nil =>
    intro c m _
    simp [mainLoop]
  | cons p t ih =>
    intro c m h
    have hk1 : ¬ ((k : ℤ) = 1) := by omega
    have hk0 : ¬ ((k : ℤ) = 0) := by omega
    have hm : ((c * k + m : ℕ) : ℤ) % (k : ℤ) = m := emod_window k c m (by simp at h; omega)
    have hne : ¬ (((c * k + m : ℕ) : ℤ) % (k : ℤ) = (k : ℤ) - 1) := by
      rw [hm]
      simp at h
      omega
    simp only [mainLoop]
    rw [if_neg hk1, if_neg hk0, if_neg hne]
    exact ih c (m + 1) (by simp at h ⊢; omega)

/-- Walking the k entries of one full window: the k - 1 leading entries are
skipped, the entry at index c * k + k - 1 processes the window sliced out of
the full sorted list, and the loop resumes at the next window start. -/
theorem mainLoop_window (k : ℕ) (hk : 2 ≤ k) (ctDir : Option String)
    (all : List (ℚ × DirEntry)) :
    ∀ (w₂ : List (ℚ × DirEntry)) (c : ℕ) (rest2 : List (ℚ × DirEntry)),
      w₂.length ≠ 0 → w₂.length ≤ k →
      mainLoop (k : ℤ) ctDir all (c * k + (k - w₂.length)) (w₂ ++ rest2) =
        match processWindow (k : ℤ) ((all.drop (c * k)).take k) with
        | .error e => .error e
        | .ok r =>
          match mainLoop (k : ℤ) ctDir all (c * k + k) rest2 with
          | .error e => .error e
          | .ok out => .ok (r :: out) := by
  intro w₂
  induction w₂ with
  | nil =>
    intro c rest2 h0 _
    simp at h0
  | cons p w₂ ih =>
    intro c rest2 _ hle
    have hk1 : ¬ ((k : ℤ) = 1) := by omega
    have hk0 : ¬ ((k : ℤ) = 0) := by omega
    by_cases hw : w₂ = []
    · subst hw
      simp only [List.length_cons, List.length_nil, Nat.zero_add] at hle ⊢
      have hm : ((c * k + (k - 1) : ℕ) : ℤ) % (k : ℤ) = (k - 1 : ℕ) :=
        emod_window k c (k - 1) (by omega)
      have heq : (((k - 1 : ℕ) : ℤ)) = (k : ℤ) - 1 := by omega
      simp only [List.cons_append, List.nil_append, mainLoop]
      rw [if_neg hk1, if_neg hk0, if_pos (by rw [hm, heq])]
      have hslice : c * k + (k - 1) + 1 - ((k : ℤ)).toNat = c * k := by
        rw [Int.toNat_natCast]
        omega
      have hidx : c * k + (k - 1) + 1 = c * k + k := by omega
      rw [hslice, hidx, Int.toNat_natCast]
      rfl
    · have hw1 : w₂.length ≠ 0 := by simpa [List.length_eq_zero] using hw
      have hm : ((c * k + (k - (w₂.length + 1)) : ℕ) : ℤ) % (k : ℤ) = (k - (w₂.length + 1) : ℕ) :=
        emod_window k c (k - (w₂.length + 1)) (by omega)
      have hne : ¬ (((c * k + (k - (w₂.length + 1)) : ℕ) : ℤ) % (k : ℤ) = (k : ℤ) - 1) := by
        rw [hm]
        simp only [List.length_cons] at hle
        omega
      simp only [List.length_cons, List.cons_append, mainLoop]
      rw [if_neg hk1, if_neg hk0, if_neg hne]
      have hidx : c * k + (k - (w₂.length + 1)) + 1 = c * k + (k - w₂.length) := by
        simp only [List.length_cons] at hle
        omega
      rw [hidx]
      exact ih c rest2 hw1 (by simp only [List.length_cons] at hle; omega)

/-- The enumerate loop started at a window boundary on a list made of full
windows followed by a short tail processes exactly the full windows in
order. -/
theorem mainLoop_windows (k : ℕ) (hk : 2 ≤ k) (ctDir : Option String)
    (all : List (ℚ × DirEntry)) :
    ∀ (ws : List (List (ℚ × DirEntry))) (tail1 : List (ℚ × DirEntry)) (c : ℕ),
      (∀ w ∈ ws, w.length = k) → tail1.length < k →
      all.drop (c * k) = ws.join ++ tail1 →
      mainLoop (k : ℤ) ctDir all (c * k) (ws.join ++ tail1) = processWindows (k : ℤ) ws := by
  intro ws
  induction ws with
  | nil =>
    intro tail1 c _ htail _
    have h := mainLoop_short_tail k hk ctDir all tail1 c 0 (by simpa using htail)
    simpa [processWindows] using h
  | cons w ws ih =>
    intro tail1 c hws htail hdrop
    have hwlen : w.length = k := hws w (by simp)
    have hdrop' : all.drop (c * k) = w ++ (ws.join ++ tail1) := by
      simpa [List.append_assoc] using hdrop
    have hwin := mainLoop_window k hk ctDir all w c (ws.join ++ tail1)
      (by omega) (by omega)
    rw [hwlen, Nat.sub_self, Nat.add_zero] at hwin
    have hgoal : ((w :: ws).join ++ tail1 : List (ℚ × DirEntry)) = w ++ (ws.join ++ tail1) := by
      simp [List.append_assoc]
    rw [hgoal, hwin]
    have hslice : (all.drop (c * k)).take k = w := by
      rw [hdrop', ← hwlen]
      exact List.take_left _ _
    have hdrop2 : all.drop ((c + 1) * k) = ws.join ++ tail1 := by
      have h2 : all.drop ((c + 1) * k) = (all.drop (c * k)).drop k := by
        rw [List.drop_drop]
        congr 1
        ring
      rw [h2, hdrop', ← hwlen, List.drop_left]
    have hrec := ih tail1 (c + 1) (fun v hv => hws v (by simp [hv])) htail hdrop2
    have hidx : c * k + k = (c + 1) * k := by ring
    rw [hslice, hidx, hrec]
    rfl

/-- Pointwise action of the pixel accumulation step. -/
theorem getD_zipWith_add (a : List ℚ) : ∀ (b : List ℚ), a.length = b.length →
    ∀ j, (List.zipWith (· + ·) a b).getD j 0 = a.getD j 0 + b.getD j 0 := by
  induction a with
  | nil =>
    intro b hb j
    have hb0 : b = [] := by
      have := hb.symm
      simpa [List.length_eq_zero] using this
    subst hb0
    simp
  | cons x a ih =>
    intro b hb j
    cases b with
    | nil => simp at hb
    | cons y b =>
      cases j with
      | zero => simp
      | succ j =>
        simp only [List.zipWith_cons_cons, List.getD_cons_succ]
        exact ih b (by simpa using hb) j

/-- The pixel accumulation of lines 192-197 started from the first frame:
it succeeds on frames of one common size and pixel j of the result is the
sum of pixel j over the starting frame and all accumulated frames. -/
theorem sumWindowGo_char (imgs : List (List ℚ)) : ∀ (a : List ℚ),
    (∀ img ∈ imgs, img.length = a.length) →
    ∃ s, sumWindowGo (some a) imgs = .ok (some s) ∧ s.length = a.length ∧
      ∀ j, s.getD j 0 = a.getD j 0 + (imgs.map (fun img => img.getD j 0)).sum := by
  induction imgs with
  | nil =>
    intro a _
    exact ⟨a, rfl, rfl, by simp⟩
  | cons img imgs ih =>
    intro a ha
    have h1 : a.length = img.length := (ha img (by simp)).symm
    have hz : (List.zipWith (· + ·) a img).length = a.length := by
      simp [List.length_zipWith, ← h1]
    obtain ⟨s, hs, hlen, hptr⟩ := ih (List.zipWith (· + ·) a img)
      (by intro i hi; rw [hz]; exact ha i (by simp [hi]))
    refine ⟨s, ?_, by rw [hlen, hz], ?_⟩
    · simp only [sumWindowGo]
      rw [if_pos h1]
      exact hs
    · intro j
      rw [hptr j, getD_zipWith_add a img h1 j]
      simp only [List.map_cons, List.sum_cons]
      ring

/-- Reading a list back from its getD values over its index range. -/
theorem range_map_getD (s : List ℚ) :
    (List.range s.length).map (fun j => s.getD j 0) = s := by
  apply List.ext_getElem
  · simp
  · intro i h1 h2
    simp only [List.getElem_map, List.getElem_range]
    exact List.getD_eq_getElem s 0 h2

/-- One full window through processWindow: when the allclose assertion holds
and all frames share one pixel count, the window yields the arithmetic mean
of its angles together with the pixel-wise arithmetic mean of its images
(the pixel sums divided by frame_size). -/
theorem processWindow_ok (k : ℤ) (w : List (ℚ × DirEntry)) (hw : w ≠ [])
    (hc : allclose (w.map Prod.fst) (npAverage (w.map Prod.fst)) = true)
    (len : ℕ) (hlen : ∀ img ∈ w.map (fun p => p.2.image), img.length = len) :
    processWindow k w = .ok (npAverage (w.map Prod.fst),
      .averaged (pixelMeanSpec k (w.map (fun p => p.2.image)) len)) := by
  obtain ⟨p, w', rfl⟩ := List.exists_cons_of_ne_nil hw
  have h0 : p.2.image.length = len := hlen _ (by simp)
  obtain ⟨s, hs, hslen, hptr⟩ := sumWindowGo_char (w'.map (fun q => q.2.image)) p.2.image
    (by
      intro img him
      rw [h0]
      exact hlen img (by simp [him]))
  have hstep : sumWindowGo none ((p :: w').map (fun q => q.2.image)) =
      sumWindowGo (some p.2.image) (w'.map (fun q => q.2.image)) := by
    simp [sumWindowGo]
  have hmain : s.map (fun x => x / (k : ℚ)) =
      pixelMeanSpec k (p.2.image :: w'.map (fun q => q.2.image)) len := by
    apply List.ext_getElem
    · simp [pixelMeanSpec, hslen, h0]
    · intro i hi1 hi2
      have hi : i < s.length := by simpa using hi1
      have hDi := hptr i
      rw [List.getD_eq_getElem s 0 hi] at hDi
      simp only [List.getElem_map, pixelMeanSpec, List.getElem_range, hDi]
      simp [List.map_cons, List.sum_cons]
  simp only [processWindow]
  rw [if_pos hc, hstep, hs]
  show Except.ok (npAverage (List.map Prod.fst (p :: w')),
    OutFile.averaged (List.map (fun x => x / (k : ℚ)) s)) = _
  rw [hmain]
  rfl

/-- C2: with frameSize greater than one, the angle-sorted list is processed
in consecutive full windows of length frameSize ending at indices congruent
to frameSize - 1, a trailing partial window is dropped without error, and
each full window yields one entry carrying the arithmetic mean of the
window's angles and the pixel-wise arithmetic mean of the window's
images. -/
theorem C2_frame_windows (k : ℕ) (hk : 2 ≤ k) (ctDir : Option String)
    (ws : List (List (ℚ × DirEntry))) (tail1 : List (ℚ × DirEntry))
    (hws : ∀ w ∈ ws, w.length = k) (htail : tail1.length < k) :
    mainLoop (k : ℤ) ctDir (ws.join ++ tail1) 0 (ws.join ++ tail1) =
      processWindows (k : ℤ) ws ∧
    ∀ w ∈ ws, allclose (w.map Prod.fst) (npAverage (w.map Prod.fst)) = true →
      ∀ len, (∀ img ∈ w.map (fun p => p.2.image), img.length = len) →
      processWindow (k : ℤ) w = .ok (npAverage (w.map Prod.fst),
        .averaged (pixelMeanSpec (k : ℤ) (w.map (fun p => p.2.image)) len)) := by
  constructor
  · have h := mainLoop_windows k hk ctDir (ws.join ++ tail1) ws tail1 0 hws htail (by simp)
    simpa using h
  · intro w hw hc len hlen
    have hnil : w ≠ [] := by
      have := hws w hw
      intro hcon
      rw [hcon] at this
      simp at this
      omega
    exact processWindow_ok (k : ℤ) w hnil hc len hlen

/-- C2 witness (Scenario B): frameSize 2, angles 0, 0, 10, 10 in sorted
order; the output is the two averaged entries, each pixel the arithmetic
mean of the two source pixels. -/
theorem C2_frame_windows_witness :
    mainLoop 2 (some "CT_frame_averaged") (([sceBw1, sceBw2] : List (List (ℚ × DirEntry))).join ++ [])
        0 (([sceBw1, sceBw2] : List (List (ℚ × DirEntry))).join ++ []) =
      .ok [(0, .averaged [2, 4]), (10, .averaged [30, 40])] := by
  have h := C2_frame_windows 2 (by norm_num) (some "CT_frame_averaged") [sceBw1, sceBw2] []
    (by
      intro w hw
      simp only [List.mem_cons, List.mem_singleton] at hw
      rcases hw with h1 | h1 | h1
      · simp [h1, sceBw1]
      · simp [h1, sceBw2]
      · simp at h1)
    (by simp)
  have h2 := h.1
  norm_num at h2 ⊢
  rw [h2]
  norm_num [processWindows, processWindow, sceBw1, sceBw2, sceB1, sceB2, sceB3,
    sceB4, allclose, npAverage, atol, rtol, sumWindowGo, List.zipWith]

/-- C7 (amended): inside one full window the assertion of line 190 tests the
np.allclose bound atol + rtol * abs(mean) with atol 1e-3 and the numpy
default rtol 1e-5, not the bare 1e-3 of the claim: a window with some angle
farther from the mean than that bound raises the angle-divergence error, and
a window with every angle within the bound never raises it. -/
theorem C7_angle_tolerance (frameSize : ℤ) (w : List (ℚ × DirEntry)) :
    ((∃ a ∈ w.map Prod.fst, ¬ |a - npAverage (w.map Prod.fst)| ≤
        atol + rtol * |npAverage (w.map Prod.fst)|) →
      processWindow frameSize w = .error .inconsistentAngles) ∧
    ((∀ a ∈ w.map Prod.fst, |a - npAverage (w.map Prod.fst)| ≤
        atol + rtol * |npAverage (w.map Prod.fst)|) →
      processWindow frameSize w ≠ .error .inconsistentAngles) := by
  have hiff : allclose (w.map Prod.fst) (npAverage (w.map Prod.fst)) = true ↔
      ∀ a ∈ w.map Prod.fst, |a - npAverage (w.map Prod.fst)| ≤
        atol + rtol * |npAverage (w.map Prod.fst)| := by
    simp [allclose, List.all_eq_true]
  constructor
  · intro hbad
    have hfalse : ¬ allclose (w.map Prod.fst) (npAverage (w.map Prod.fst)) = true := by
      rw [hiff]
      push_neg
      obtain ⟨a, ha, hna⟩ := hbad
      exact ⟨a, ha, by simpa using hna⟩
    simp only [processWindow]
    rw [if_neg hfalse]
  · intro hgood
    have htrue : allclose (w.map Prod.fst) (npAverage (w.map Prod.fst)) = true :=
      hiff.mpr hgood
    simp only [processWindow, htrue, if_true]
    cases hsum : sumWindowGo none (w.map (fun p => p.2.image)) with
    | error e =>
      have hne : e ≠ CTError.inconsistentAngles := by
        have : ∀ (imgs : List (List ℚ)) (acc : Option (List ℚ)) (e1 : CTError),
            sumWindowGo acc imgs = .error e1 → e1 = .inconsistentGeometry := by
          intro imgs
          induction imgs with
          | nil =>
            intro acc e1 h1
            cases acc <;> simp [sumWindowGo] at h1
          | cons img rest ih =>
            intro acc e1 h1
            cases acc with
            | none => exact ih (some img) e1 h1
            | some a =>
              simp only [sumWindowGo] at h1
              by_cases hl : a.length = img.length
              · rw [if_pos hl] at h1
                exact ih _ e1 h1
              · rw [if_neg hl] at h1
                simp at h1
                simp [← h1]
        have := this (w.map (fun p => p.2.image)) none e hsum
        rw [this]
        simp
      simp [hne]
    | ok s =>
      cases s <;> simp

/-- C7 witness: a window of two frames at the identical angle satisfies the
bound and the angle-divergence error is not raised. -/
theorem C7_angle_tolerance_witness :
    processWindow 2 c7good ≠ .error .inconsistentAngles :=
  (C7_angle_tolerance 2 c7good).2 (by norm_num [c7good, npAverage, atol, rtol])

/-- C7 counterexample: the window with angles 128 and 128.003 has both
angles 0.0015 degrees from the mean 128.0015 — more than the claimed 1e-3
tolerance — yet the assertion passes (0.0015 is below atol + rtol * 128.0015
= 0.002280015) and the window is averaged normally instead of raising. -/
theorem C7_counterexample :
    (∃ a ∈ c7w.map Prod.fst, ¬ |a - npAverage (c7w.map Prod.fst)| ≤ atol) ∧
    processWindow 2 c7w = .ok (256003 / 2000, .averaged [5]) := by
  constructor
  · refine ⟨128003 / 1000, by norm_num [c7w], ?_⟩
    rw [show npAverage (c7w.map Prod.fst) = 256003 / 2000 by
      norm_num [c7w, npAverage]]
    rw [show |(128003 : ℚ) / 1000 - 256003 / 2000| = 3 / 2000 by
      rw [abs_of_nonneg] <;> norm_num]
    norm_num [atol]
  · norm_num [processWindow, c7w, allclose, npAverage, atol, rtol, sumWindowGo,
      List.zipWith]
    intro hcon
    rw [abs_of_nonneg (by norm_num : (0 : ℚ) ≤ 256003 / 2000),
      abs_of_nonneg (by norm_num : (0 : ℚ) ≤ 3 / 2000)] at hcon
    norm_num at hcon

/-- On the frame_size 1 path the loop body reads ct_dir before anything else
can happen, so any non-empty sorted list fails immediately. -/
theorem mainLoop_frame1_unbound (all : List (ℚ × DirEntry)) (idx : ℕ)
    (p : ℚ × DirEntry) (rest : List (ℚ × DirEntry)) :
    mainLoop 1 none all idx (p :: rest) = .error .unboundLocalCtDir := by
  simp [mainLoop]

/-- _getCTfiles on any trigger with FrameSize 1 and at least one matching
file: ct_dir was never assigned (line 167 guards the assignment with
frame_size not 1), so the first loop iteration raises UnboundLocalError. -/
theorem getCTfiles_frame1 (workdir : String) (trigger : DirEntry)
    (entries : List DirEntry) (hf : trigger.frameSize = 1)
    (hne : matchingEntries trigger.groupId entries ≠ []) :
    getCTfiles workdir trigger entries = .error .unboundLocalCtDir := by
  obtain ⟨e, es, hm⟩ := List.exists_cons_of_ne_nil hne
  simp only [getCTfiles, hm, hf, List.map_cons, npMin]
  rw [if_neg (by simp)]
  cases hq : sortPairs ((e.rotation :: es.map DirEntry.rotation).zip (e :: es)) with
  | nil =>
    rw [sortPairs] at hq
    have h2 : List.Perm ([] : List (ℚ × DirEntry))
        ((e.rotation :: es.map DirEntry.rotation).zip (e :: es)) :=
      hq ▸ List.perm_insertionSort pairLe _
    have h3 := h2.symm.eq_nil
    simp [List.zip_cons_cons] at h3
  | cons q qs =>
    rw [mainLoop_frame1_unbound]

/-- C3 (code bug): assembling the Scenario A group (four files of group 100,
frame size 1, angles 10, 0, 30, 20) raises the unbound-local ct_dir error
instead of producing the angle-sorted sequence of links. -/
theorem C3_frame1_unbound :
    getCTfiles "/work" sceA1 [sceA1, sceA2, sceA3, sceA4] = .error .unboundLocalCtDir :=
  getCTfiles_frame1 "/work" sceA1 [sceA1, sceA2, sceA3, sceA4]
    (by norm_num [sceA1])
    (by
      have h : matchingEntries sceA1.groupId [sceA1, sceA2, sceA3, sceA4] =
          [sceA1, sceA2, sceA3, sceA4] := by
        norm_num [matchingEntries, sceA1, sceA2, sceA3, sceA4, List.filter_cons]
      rw [h]
      simp)

/-- C4 (code bug): with a trigger of mtime 100 and a second group member of
mtime 50, _getCTfiles reports earliest_ct_mtime 100 — the trigger's own
mtime, appended once per matching entry at line 162 — although the minimum
of the surviving entries' own modification times is 50. -/
theorem C4_earliest_mtime_bug :
    getCTfiles "/work" c4trig [c4trig, c4other] = .ok (100, [(0, .averaged [1])]) ∧
    c4other.groupId = c4trig.groupId ∧ c4other.mtime = 50 ∧
    c4other.mtime < c4trig.mtime := by
  refine ⟨?_, by norm_num [c4trig, c4other], by norm_num [c4other],
    by norm_num [c4trig, c4other]⟩
  have hmatch : matchingEntries c4trig.groupId [c4trig, c4other] = [c4trig, c4other] := by
    norm_num [matchingEntries, c4trig, c4other, List.filter_cons]
  have hzip : (([c4trig, c4other].map DirEntry.rotation).zip [c4trig, c4other]) =
      [((0 : ℚ), c4trig), (0, c4other)] := by
    norm_num [c4trig, c4other, List.zip_cons_cons]
  have hple : pairLe ((0 : ℚ), c4trig) ((0 : ℚ), c4other) := by
    unfold pairLe
    exact Or.inr ⟨rfl, by decide⟩
  have hsort : sortPairs [((0 : ℚ), c4trig), (0, c4other)] = [(0, c4trig), (0, c4other)] := by
    rw [sortPairs]
    simp only [List.insertionSort, List.orderedInsert]
    rw [if_pos hple]
  have ht : ((2 : ℤ)).toNat = 2 := rfl
  simp only [getCTfiles, hmatch, hzip, hsort]
  norm_num [c4trig, c4other, npMin, min_def, mainLoop, processWindow, allclose,
    npAverage, atol, rtol, sumWindowGo, List.zipWith, ht]

end CTMeta
